import Mathlib

/-
Shallow embedding of src/mcp/app/infrastructure/github/post.py.

The module has two functions of interest:
  * upload_files_to_github : iterates over file records, for each one
    base64-encodes the content (unless already base64), issues a GET to
    look up an existing sha, issues a PUT to create/update the file, and
    classifies the outcome as success / error / exception, accumulating
    an aggregate report.
  * prepare_files_from_directory : walks a local directory tree and
    builds the file records.

Effectful Python primitives are modelled by explicit parameters:
  * the HTTP layer (requests.get / requests.put) is an oracle
    net : Nat -> Request -> Except String HttpResponse, indexed by the
    number of requests issued so far; an .error result models the call
    raising an exception, and HttpResponse.json models response.json()
    (which may itself raise, hence Except).
  * str.encode(encoding) is a codec parameter
    codec : String -> String -> Except String (List Nat); a concrete
    utf-8 instance pyStrEncode is provided for evaluation.
Python dict records are modelled by FileRecord with optional fields
(missing key = none); dict access raising KeyError is modelled by the
corresponding match on none.
-/

namespace GithubUpload

/-- A JSON value, as returned by response.json(). -/
inductive Json where
  | null : Json
  | bool (b : Bool) : Json
  | num (n : Int) : Json
  | str (s : String) : Json
  | arr (elems : List Json) : Json
  | obj (fields : List (String × Json)) : Json

/-- Embedding of j[k] on a parsed JSON value: KeyError on a missing key,
TypeError on a non-object. -/
def Json.getField : Json → String → Except String Json
  | .obj fields, k =>
    match fields.lookup k with
    | some v => .ok v
    | none => .error ("KeyError: " ++ k)
  | _, k => .error ("TypeError: value is not subscriptable at key " ++ k)

/-- A Python dict record from the files list: the keys the code reads
(path, content, encoding), each possibly absent. -/
structure FileRecord where
  path : Option String
  content : Option String
  encoding : Option String

/-- A per-file outcome dict: status is success, error or exception. -/
inductive Outcome where
  | success (path : String) (response : Json) : Outcome
  | error (path : String) (error : Json) (status_code : Nat) : Outcome
  | exception (path : String) (error : String) : Outcome

/-- Whether the outcome goes to the results list (true) or the errors
list (false). -/
def Outcome.isSuccess : Outcome → Bool
  | .success _ _ => true
  | _ => false

inductive Method where
  | get : Method
  | put : Method
deriving DecidableEq

/-- The JSON body of the PUT request (the data dict). -/
structure PutData where
  message : String
  content : String
  branch : String
  sha : Option Json

/-- An outbound HTTP request. body is none for GET and some data for
PUT (requests.put with json=data). -/
structure Request where
  method : Method
  url : String
  headers : List (String × String)
  body : Option PutData

/-- An HTTP response: its status code and the result of response.json()
(.error models the JSON parse raising). -/
structure HttpResponse where
  status_code : Nat
  json : Except String Json

/-- The base64 alphabet. -/
def b64Alphabet : List Char :=
  "ABCDEFGHIJKLMNOPQRSTUVWXYZabcdefghijklmnopqrstuvwxyz0123456789+/".data

def b64Char (n : Nat) : Char := b64Alphabet.getD n (Char.ofNat 65)

/-- RFC 4648 base64 of a byte list, as base64.b64encode: groups of three
bytes become four alphabet characters, with = padding. -/
def b64encodeBytes : List Nat → List Char
  | [] => []
  | [a] => [b64Char (a / 4), b64Char (a % 4 * 16), '=', '=']
  | [a, b] => [b64Char (a / 4), b64Char (a % 4 * 16 + b / 16), b64Char (b % 16 * 4), '=']
  | a :: b :: c :: rest =>
    b64Char (a / 4) :: b64Char (a % 4 * 16 + b / 16) ::
      b64Char (b % 16 * 4 + c / 64) :: b64Char (c % 64) :: b64encodeBytes rest

/-- base64.b64encode(bytes).decode(utf-8): the base64 text as a string
(the alphabet is ASCII, so the final decode is transliteration). -/
def b64encodeStr (bytes : List Nat) : String := String.mk (b64encodeBytes bytes)

/-- str.lower(): lower-case each character (ASCII case mapping, which
is what the codec and encoding names in this code exercise). -/
def pyLower (s : String) : String := String.mk (s.data.map Char.toLower)

/-- s.replace(backslash, slash): replace every backslash character by a
forward slash. -/
def fwdSlashes (s : String) : String :=
  String.mk (s.data.map (fun c => if c = '\\' then '/' else c))

/-- UTF-8 bytes of a single code point. -/
def utf8Bytes (n : Nat) : List Nat :=
  if n < 128 then [n]
  else if n < 2048 then [192 + n / 64, 128 + n % 64]
  else if n < 65536 then [224 + n / 4096, 128 + n / 64 % 64, 128 + n % 64]
  else [240 + n / 262144, 128 + n / 4096 % 64, 128 + n / 64 % 64, 128 + n % 64]

/-- s.encode(utf-8): the UTF-8 byte sequence of the string. -/
def pyEncodeUtf8 (s : String) : List Nat :=
  (s.data.map (fun c => utf8Bytes c.toNat)).flatten

/-- Concrete codec: str.encode for the utf-8 codec; other codec names
yield a LookupError-style failure. -/
def pyStrEncode (codecName : String) (s : String) : Except String (List Nat) :=
  if pyLower codecName = "utf-8" then .ok (pyEncodeUtf8 s)
  else .error ("LookupError: unknown encoding: " ++ codecName)

/-- The network oracle: given the number of requests issued so far and
the request, the response (or a raised exception, as .error). -/
abbrev Net := Nat → Request → Except String HttpResponse

/-- The codec oracle: str.encode(encoding) for the content string. -/
abbrev Codec := String → String → Except String (List Nat)

/-- The scalar arguments of upload_files_to_github. -/
structure Config where
  token : String
  repo_owner : String
  repo_name : String
  commit_message : String
  branch : String

/-- base_url = f-string of the repos contents endpoint. -/
def base_url (cfg : Config) : String :=
  "https://api.github.com/repos/" ++ cfg.repo_owner ++ "/" ++ cfg.repo_name ++ "/contents/"

/-- The headers dict: Authorization (token scheme) and Accept. -/
def headersOf (cfg : Config) : List (String × String) :=
  [("Authorization", "token " ++ cfg.token),
   ("Accept", "application/vnd.github.v3+json")]

/-- The encoding step: content unchanged when encoding.lower() is
base64, otherwise base64 of content.encode(encoding). -/
def encodeStep (codec : Codec) (encoding content : String) : Except String String :=
  if pyLower encoding = "base64" then .ok content
  else (codec encoding content).map b64encodeStr

/-- The sha lookup on the GET response: on status 200 take
response.json()[sha] (either step may raise), otherwise no sha. -/
def shaStep (resp : HttpResponse) : Except String (Option Json) :=
  if resp.status_code = 200 then
    match resp.json with
    | .error e => .error e
    | .ok j =>
      match j.getField "sha" with
      | .error e => .error e
      | .ok v => .ok (some v)
  else .ok none

/-- Classification of the PUT response: 200/201 with parsed body is a
success outcome, any other status with parsed body is an error outcome,
and a raising response.json() is an exception outcome. -/
def classifyPut (path : String) (resp : HttpResponse) : Outcome :=
  if resp.status_code = 200 ∨ resp.status_code = 201 then
    match resp.json with
    | .ok body => .success path body
    | .error e => .exception path e
  else
    match resp.json with
    | .ok body => .error path body resp.status_code
    | .error e => .exception path e

/-- The GET existence-check request for a record path
(requests.get(check_url, headers=headers)). -/
def getRequest (cfg : Config) (path : String) : Request :=
  ⟨.get, base_url cfg ++ path, headersOf cfg, none⟩

/-- The PUT write request for a record path and its data dict
(requests.put(upload_url, headers=headers, json=data)). -/
def putRequest (cfg : Config) (path : String) (data : PutData) : Request :=
  ⟨.put, base_url cfg ++ path, headersOf cfg, some data⟩

/-- One iteration of the upload loop: the try body with its except
handler. Returns the single outcome appended for this record together
with the list of HTTP requests issued (in order); k is the number of
requests issued before this record. -/
def processFile (cfg : Config) (net : Net) (codec : Codec)
    (k : Nat) (file : FileRecord) : Outcome × List Request :=
  match file.path with
  | none => (.exception "unknown" "KeyError: path", [])
  | some path =>
    match file.content with
    | none => (.exception path "KeyError: content", [])
    | some content =>
      let encoding := file.encoding.getD "utf-8"
      match encodeStep codec encoding content with
      | .error e => (.exception path e, [])
      | .ok encoded_content =>
        let getReq : Request := getRequest cfg path
        match net k getReq with
        | .error e => (.exception path e, [getReq])
        | .ok getResp =>
          match shaStep getResp with
          | .error e => (.exception path e, [getReq])
          | .ok sha =>
            let data : PutData := ⟨cfg.commit_message, encoded_content, cfg.branch, sha⟩
            let putReq : Request := putRequest cfg path data
            match net (k + 1) putReq with
            | .error e => (.exception path e, [getReq, putReq])
            | .ok putResp => (classifyPut path putResp, [getReq, putReq])

/-- The per-record outcomes of the loop, in input order; k counts the
requests issued before the first record. -/
def uploadOutcomes (cfg : Config) (net : Net) (codec : Codec) :
    Nat → List FileRecord → List Outcome
  | _, [] => []
  | k, f :: fs =>
    (processFile cfg net codec k f).1 ::
      uploadOutcomes cfg net codec (k + (processFile cfg net codec k f).2.length) fs

/-- All HTTP requests issued by the loop, in order. -/
def uploadRequests (cfg : Config) (net : Net) (codec : Codec) :
    Nat → List FileRecord → List Request
  | _, [] => []
  | k, f :: fs =>
    (processFile cfg net codec k f).2 ++
      uploadRequests cfg net codec (k + (processFile cfg net codec k f).2.length) fs

/-- The loop with its two accumulators: the results list (successes)
and the errors list (error and exception outcomes), each in append
order. -/
def uploadAux (cfg : Config) (net : Net) (codec : Codec) :
    Nat → List FileRecord → List Outcome × List Outcome
  | _, [] => ([], [])
  | k, f :: fs =>
    let o := (processFile cfg net codec k f).1
    let rest := uploadAux cfg net codec (k + (processFile cfg net codec k f).2.length) fs
    match o with
    | .success p b => (.success p b :: rest.1, rest.2)
    | o => (rest.1, o :: rest.2)

/-- The aggregate report dict returned by upload_files_to_github. -/
structure UploadResult where
  success : Bool
  results : List Outcome
  errors : List Outcome
  uploaded_count : Nat
  error_count : Nat

/-- upload_files_to_github: run the loop over all records and build the
report. -/
def upload_files_to_github (cfg : Config) (net : Net) (codec : Codec)
    (files : List FileRecord) : UploadResult :=
  let acc := uploadAux cfg net codec 0 files
  { success := acc.2.length = 0
    results := acc.1
    errors := acc.2
    uploaded_count := acc.1.length
    error_count := acc.2.length }

/-- A local filesystem entry: a regular file with (decoded) text
content, or a directory with its entries. The name is one path
component. -/
inductive FsTree where
  | file (name : String) (content : String) : FsTree
  | dir (name : String) (children : List FsTree) : FsTree

/-- Join a (possibly empty) relative path with a further component, as
pathlib does for relative paths. -/
def joinRel (pfx name : String) : String :=
  if pfx = "" then name else pfx ++ "/" ++ name

mutual

/-- base_path.rglob of a single entry: the entry itself (with its path
relative to the root) followed by its recursive contents. -/
def rglobTree (pfx : String) : FsTree → List (String × FsTree)
  | .file name content => [(joinRel pfx name, .file name content)]
  | .dir name children =>
    (joinRel pfx name, .dir name children) :: rglobList (joinRel pfx name) children

/-- base_path.rglob over a list of entries. -/
def rglobList (pfx : String) : List FsTree → List (String × FsTree)
  | [] => []
  | t :: ts => rglobTree pfx t ++ rglobList pfx ts

end

/-- str(Path(remote_directory) / rel_path) if remote_directory else
str(rel_path), for already-normalised relative POSIX paths. -/
def joinRemote (remote_directory rel : String) : String :=
  if remote_directory = "" then rel else remote_directory ++ "/" ++ rel

/-- The record built for one rglob item when it is a regular file. -/
def recordOf (remote_directory : String) (pt : String × FsTree) : Option FileRecord :=
  match pt.2 with
  | .file _ content =>
    some ⟨some (fwdSlashes (joinRemote remote_directory pt.1)), some content, some "utf-8"⟩
  | .dir _ _ => none

/-- prepare_files_from_directory: walk the tree, keep regular files,
and build a path/content/encoding record for each. The root directory
is given by its list of entries. -/
def prepare_files_from_directory (entries : List FsTree) (remote_directory : String) :
    List FileRecord :=
  (rglobList "" entries).filterMap (recordOf remote_directory)

mutual

/-- Specification-side listing: the regular files of an entry with
their root-relative paths (components joined by forward slashes). -/
def treeFiles : FsTree → List (String × String)
  | .file name content => [(name, content)]
  | .dir name children =>
    (listFiles children).map (fun pc => (name ++ "/" ++ pc.1, pc.2))

/-- Specification-side listing over a list of entries. -/
def listFiles : List FsTree → List (String × String)
  | [] => []
  | t :: ts => treeFiles t ++ listFiles ts

end

mutual

/-- Well-formedness: every directory name in the tree is a nonempty
path component. -/
def dirNamesOk : FsTree → Bool
  | .file _ _ => true
  | .dir name children => (name != "") && dirListNamesOk children

/-- Well-formedness over a list of entries. -/
def dirListNamesOk : List FsTree → Bool
  | [] => true
  | t :: ts => dirNamesOk t && dirListNamesOk ts

end

/-- The scenario directory of the claim: files a.txt and sub/b.txt. -/
def exampleDir : List FsTree :=
  [FsTree.file "a.txt" "A", FsTree.dir "sub" [FsTree.file "b.txt" "B"]]

/-! Concrete inputs used to evaluate the development on closed runs. -/

/-- A concrete configuration. -/
def cfg0 : Config := ⟨"t0", "owner0", "repo0", "msg0", "main"⟩

/-- A concrete network: every GET misses (404), every PUT succeeds with
status 201 and an empty-object body. -/
def net0 : Net := fun _ req =>
  match req.method with
  | .get => .ok ⟨404, .error "JSONDecodeError: no body"⟩
  | .put => .ok ⟨201, .ok (Json.obj [])⟩

/-- A concrete record with default encoding. -/
def file0 : FileRecord := ⟨some "a.txt", some "hi", none⟩

/-- The GET request issued for file0 under cfg0. -/
def getReq0 : Request :=
  ⟨.get, "https://api.github.com/repos/owner0/repo0/contents/a.txt",
   [("Authorization", "token t0"), ("Accept", "application/vnd.github.v3+json")], none⟩

/-- The PUT request issued for file0 under cfg0 and net0. -/
def putReq0 : Request :=
  ⟨.put, "https://api.github.com/repos/owner0/repo0/contents/a.txt",
   [("Authorization", "token t0"), ("Accept", "application/vnd.github.v3+json")],
   some ⟨"msg0", "aGk=", "main", none⟩⟩

/-- A record with no path key, for concrete evaluation. -/
def fileNoPath : FileRecord := ⟨none, some "x", none⟩

/-- A concrete network where every GET misses and every PUT is
rejected with a 409 conflict. -/
def net409 : Net := fun _ req =>
  match req.method with
  | .get => .ok ⟨404, .error "JSONDecodeError: no body"⟩
  | .put => .ok ⟨409, .ok (Json.obj [("message", Json.str "conflict")])⟩

/-- A concrete network where the GET finds the file (200 with a sha
field) and the PUT succeeds with 200. -/
def net200 : Net := fun _ req =>
  match req.method with
  | .get => .ok ⟨200, .ok (Json.obj [("sha", Json.str "abc123")])⟩
  | .put => .ok ⟨200, .ok (Json.obj [])⟩

/-- The PUT request issued for file0 under cfg0 and net200: it carries
the sha found by the GET. -/
def putReq200 : Request :=
  ⟨.put, "https://api.github.com/repos/owner0/repo0/contents/a.txt",
   [("Authorization", "token t0"), ("Accept", "application/vnd.github.v3+json")],
   some ⟨"msg0", "aGk=", "main", some (Json.str "abc123")⟩⟩

/-! ### Helper lemmas -/

theorem uploadAux_length (cfg : Config) (net : Net) (codec : Codec) :
    ∀ (k : Nat) (files : List FileRecord),
      (uploadAux cfg net codec k files).1.length
        + (uploadAux cfg net codec k files).2.length = files.length
  | _, [] => rfl
  | k, f :: fs => by
    have ih := uploadAux_length cfg net codec
      (k + (processFile cfg net codec k f).2.length) fs
    simp only [uploadAux]
    cases h : (processFile cfg net codec k f).1 <;> simp [h] <;> omega

theorem uploadAux_eq_filters (cfg : Config) (net : Net) (codec : Codec) :
    ∀ (k : Nat) (files : List FileRecord),
      uploadAux cfg net codec k files =
        ((uploadOutcomes cfg net codec k files).filter Outcome.isSuccess,
         (uploadOutcomes cfg net codec k files).filter (fun o => !o.isSuccess))
  | _, [] => rfl
  | k, f :: fs => by
    have ih := uploadAux_eq_filters cfg net codec
      (k + (processFile cfg net codec k f).2.length) fs
    simp only [uploadAux, uploadOutcomes, ih]
    cases h : (processFile cfg net codec k f).1 <;>
      simp [h, Outcome.isSuccess, List.filter]

theorem uploadOutcomes_length (cfg : Config) (net : Net) (codec : Codec) :
    ∀ (k : Nat) (files : List FileRecord),
      (uploadOutcomes cfg net codec k files).length = files.length
  | _, [] => rfl
  | k, f :: fs => by
    simp [uploadOutcomes,
      uploadOutcomes_length cfg net codec (k + (processFile cfg net codec k f).2.length) fs]

theorem uploadOutcomes_append (cfg : Config) (net : Net) (codec : Codec) :
    ∀ (k : Nat) (pre post : List FileRecord),
      uploadOutcomes cfg net codec k (pre ++ post)
        = uploadOutcomes cfg net codec k pre
          ++ uploadOutcomes cfg net codec
              (k + (uploadRequests cfg net codec k pre).length) post
  | _, [], _ => by simp [uploadOutcomes, uploadRequests]
  | k, f :: pre, post => by
    have ih := uploadOutcomes_append cfg net codec
      (k + (processFile cfg net codec k f).2.length) pre post
    simp [uploadOutcomes, uploadRequests, ih, Nat.add_assoc]

theorem processFile_cases (cfg : Config) (net : Net) (codec : Codec)
    (k : Nat) (file : FileRecord) :
    (processFile cfg net codec k file).2 = []
    ∨ (∃ path, file.path = some path ∧
        (processFile cfg net codec k file).2 = [getRequest cfg path])
    ∨ (∃ path content ec getResp sha,
        file.path = some path ∧ file.content = some content ∧
        encodeStep codec (file.encoding.getD "utf-8") content = .ok ec ∧
        net k (getRequest cfg path) = .ok getResp ∧
        shaStep getResp = .ok sha ∧
        (processFile cfg net codec k file).2
          = [getRequest cfg path,
             putRequest cfg path ⟨cfg.commit_message, ec, cfg.branch, sha⟩] ∧
        (∀ e, net (k + 1) (putRequest cfg path ⟨cfg.commit_message, ec, cfg.branch, sha⟩)
              = .error e →
            (processFile cfg net codec k file).1 = .exception path e) ∧
        (∀ putResp, net (k + 1) (putRequest cfg path ⟨cfg.commit_message, ec, cfg.branch, sha⟩)
              = .ok putResp →
            (processFile cfg net codec k file).1 = classifyPut path putResp)) := by
  rcases hp : file.path with _ | path
  · left; simp [processFile, hp]
  · rcases hc : file.content with _ | content
    · left; simp [processFile, hp, hc]
    · rcases hE : encodeStep codec (file.encoding.getD "utf-8") content with e | ec
      · left; simp [processFile, hp, hc, hE]
      · rcases hG : net k (getRequest cfg path) with e | getResp
        · right; left
          exact ⟨path, rfl, by simp [processFile, hp, hc, hE, hG]⟩
        · rcases hS : shaStep getResp with e | sha
          · right; left
            exact ⟨path, rfl, by simp [processFile, hp, hc, hE, hG, hS]⟩
          · right; right
            refine ⟨path, content, ec, getResp, sha, rfl, rfl, hE, hG, hS, ?_, ?_, ?_⟩
            · cases hPut : net (k + 1)
                (putRequest cfg path ⟨cfg.commit_message, ec, cfg.branch, sha⟩) <;>
                simp [processFile, hp, hc, hE, hG, hS, hPut]
            · intro e hPut
              simp [processFile, hp, hc, hE, hG, hS, hPut]
            · intro putResp hPut
              simp [processFile, hp, hc, hE, hG, hS, hPut]

theorem encodeStep_ok (codec : Codec) (encoding content ec : String)
    (h : encodeStep codec encoding content = .ok ec) :
    (pyLower encoding = "base64" ∧ ec = content)
    ∨ (pyLower encoding ≠ "base64" ∧
        ∃ bytes, codec encoding content = .ok bytes ∧ ec = b64encodeStr bytes) := by
  by_cases hb : pyLower encoding = "base64"
  · left
    refine ⟨hb, ?_⟩
    simp only [encodeStep, if_pos hb] at h
    exact (Except.ok.injEq _ _ ▸ h).symm
  · right
    refine ⟨hb, ?_⟩
    simp only [encodeStep, if_neg hb] at h
    cases hcd : codec encoding content with
    | error e => simp [hcd, Except.map] at h
    | ok bytes =>
      simp [hcd, Except.map] at h
      exact ⟨bytes, rfl, h.symm⟩

theorem shaStep_ok (resp : HttpResponse) (sha : Option Json)
    (h : shaStep resp = .ok sha) :
    (resp.status_code = 200 ∧
        ∃ j v, resp.json = .ok j ∧ j.getField "sha" = .ok v ∧ sha = some v)
    ∨ (resp.status_code ≠ 200 ∧ sha = none) := by
  by_cases h2 : resp.status_code = 200
  · left
    refine ⟨h2, ?_⟩
    simp only [shaStep, if_pos h2] at h
    cases hj : resp.json with
    | error e => simp [hj] at h
    | ok j =>
      simp only [hj] at h
      cases hf : j.getField "sha" with
      | error e => simp [hf] at h
      | ok v =>
        simp only [hf] at h
        exact ⟨j, v, rfl, hf, (Except.ok.injEq _ _ ▸ h).symm⟩
  · right
    refine ⟨h2, ?_⟩
    simp only [shaStep, if_neg h2] at h
    exact (Except.ok.injEq _ _ ▸ h).symm

theorem processFile_request_shape (cfg : Config) (net : Net) (codec : Codec)
    (k : Nat) (file : FileRecord) (req : Request)
    (h : req ∈ (processFile cfg net codec k file).2) :
    req.headers = headersOf cfg ∧
      ∃ p, file.path = some p ∧ req.url = base_url cfg ++ p := by
  rcases processFile_cases cfg net codec k file with hnil | ⟨p, hp, hone⟩ |
      ⟨p, content, ec, getResp, sha, hp, _, _, _, _, htwo, _, _⟩
  · rw [hnil] at h
    simp at h
  · rw [hone] at h
    simp at h
    subst h
    exact ⟨rfl, p, hp, rfl⟩
  · rw [htwo] at h
    simp at h
    rcases h with h | h <;> subst h <;> exact ⟨rfl, p, hp, rfl⟩

theorem append_ne_empty_left (s t : String) (h : s ≠ "") : s ++ t ≠ "" := by
  intro he
  apply h
  have hd := congrArg String.data he
  rw [String.data_append] at hd
  have : s.data = [] := List.append_eq_nil.mp hd |>.1
  exact String.ext this

theorem joinRel_assoc (pfx name p : String) (hname : name ≠ "") :
    joinRel (joinRel pfx name) p = joinRel pfx (name ++ "/" ++ p) := by
  by_cases hp : pfx = ""
  · simp [joinRel, hp, hname]
  · have h1 : pfx ++ ("/" ++ name) ≠ "" := append_ne_empty_left _ _ hp
    simp [joinRel, hp, hname, h1, String.append_assoc]

mutual

theorem rglobTree_files (remote pfx : String) (t : FsTree)
    (hok : dirNamesOk t = true) :
    (rglobTree pfx t).filterMap (recordOf remote)
      = (treeFiles t).map (fun pc =>
          ⟨some (fwdSlashes (joinRemote remote (joinRel pfx pc.1))),
           some pc.2, some "utf-8"⟩) := by
  cases t with
  | file name content => simp [rglobTree, treeFiles, recordOf]
  | dir name children =>
    have hname : name ≠ "" := by
      simp [dirNamesOk, Bool.and_eq_true] at hok
      simpa using hok.1
    have hch : dirListNamesOk children = true := by
      simp [dirNamesOk, Bool.and_eq_true] at hok
      exact hok.2
    have ih := rglobList_files remote (joinRel pfx name) children hch
    simp only [rglobTree, treeFiles, List.filterMap_cons, recordOf, ih, List.map_map]
    apply List.map_congr_left
    intro pc _
    simp [Function.comp, joinRel_assoc pfx name pc.1 hname]

theorem rglobList_files (remote pfx : String) (ts : List FsTree)
    (hok : dirListNamesOk ts = true) :
    (rglobList pfx ts).filterMap (recordOf remote)
      = (listFiles ts).map (fun pc =>
          ⟨some (fwdSlashes (joinRemote remote (joinRel pfx pc.1))),
           some pc.2, some "utf-8"⟩) := by
  cases ts with
  | nil => simp [rglobList, listFiles]
  | cons t ts =>
    simp [dirListNamesOk, Bool.and_eq_true] at hok
    have ih1 := rglobTree_files remote pfx t hok.1
    have ih2 := rglobList_files remote pfx ts hok.2
    simp [rglobList, listFiles, List.filterMap_append, ih1, ih2]

end

/-! ### Claim theorems -/

/-- C1: for every input list of file records, the report of
upload_files_to_github satisfies uploaded_count + error_count = number
of input records: each record contributes exactly one outcome, either
to results or to errors. -/
theorem upload_counts_partition (cfg : Config) (net : Net) (codec : Codec)
    (files : List FileRecord) :
    (upload_files_to_github cfg net codec files).uploaded_count
      + (upload_files_to_github cfg net codec files).error_count = files.length := by
  simpa [upload_files_to_github] using uploadAux_length cfg net codec 0 files

/-- C2: the success field of the report of upload_files_to_github is
true if and only if its error_count field equals 0. -/
theorem upload_success_iff_no_errors (cfg : Config) (net : Net) (codec : Codec)
    (files : List FileRecord) :
    (upload_files_to_github cfg net codec files).success = true ↔
      (upload_files_to_github cfg net codec files).error_count = 0 := by
  simp [upload_files_to_github]

/-- C6: for every local root directory (with nonempty component names)
and optional remote prefix, the scanner produces exactly one record per
regular file found recursively under the root, whose path is the
root-relative path of the file with the remote prefix prepended, with every
backslash turned into a forward slash. -/
theorem prepare_files_relative_paths (entries : List FsTree)
    (remote_directory : String) (hok : dirListNamesOk entries = true) :
    prepare_files_from_directory entries remote_directory
      = (listFiles entries).map (fun pc =>
          ⟨some (fwdSlashes (joinRemote remote_directory pc.1)),
           some pc.2, some "utf-8"⟩) := by
  have h := rglobList_files remote_directory "" entries hok
  simpa [prepare_files_from_directory, joinRel] using h

/-- C6 witness: the scanner on a directory holding a.txt and sub/b.txt
with no remote prefix yields records with paths a.txt and sub/b.txt. -/
theorem prepare_files_relative_paths_witness :
    dirListNamesOk exampleDir = true ∧
      (prepare_files_from_directory exampleDir ""
        = (listFiles exampleDir).map (fun pc =>
            ⟨some (fwdSlashes (joinRemote "" pc.1)), some pc.2, some "utf-8"⟩)) ∧
      (prepare_files_from_directory exampleDir "").map FileRecord.path
        = [some "a.txt", some "sub/b.txt"] :=
  ⟨rfl, prepare_files_relative_paths exampleDir "" rfl, rfl⟩

/-- C7: no per-record failure is fatal to the batch: the loop processes
pre ++ post by processing pre and then processing all of post (with the
request counter advanced by the requests pre issued), whatever the
outcomes of pre were, and the outcome list always has one entry per
input record (the function is total, so it never raises and never
truncates). -/
theorem batch_never_truncates (cfg : Config) (net : Net) (codec : Codec)
    (k : Nat) (pre post : List FileRecord) :
    uploadOutcomes cfg net codec k (pre ++ post)
      = uploadOutcomes cfg net codec k pre
        ++ uploadOutcomes cfg net codec
            (k + (uploadRequests cfg net codec k pre).length) post
    ∧ (uploadOutcomes cfg net codec k (pre ++ post)).length
        = pre.length + post.length := by
  refine ⟨uploadOutcomes_append cfg net codec k pre post, ?_⟩
  simp [uploadOutcomes_length]

/-- C9: a record whose mapping has no path key yields (without raising)
a single exception outcome whose path field is the string unknown, and
issues no HTTP request. -/
theorem missing_path_yields_unknown_exception (cfg : Config) (net : Net)
    (codec : Codec) (k : Nat) (file : FileRecord) (h : file.path = none) :
    (processFile cfg net codec k file).1 = .exception "unknown" "KeyError: path"
      ∧ (processFile cfg net codec k file).2 = [] := by
  simp [processFile, h]

/-- C9 witness: the missing-path outcome evaluated on a concrete
record. -/
theorem missing_path_witness :
    fileNoPath.path = none ∧
      (processFile cfg0 net0 pyStrEncode 0 fileNoPath).1
        = .exception "unknown" "KeyError: path" :=
  ⟨rfl, (missing_path_yields_unknown_exception cfg0 net0 pyStrEncode 0 fileNoPath rfl).1⟩

/-- C3: for every PUT write request issued for a record, if the
encoding field of the record (default utf-8) equals base64
case-insensitively then the content field of the request is the content
string of the record unmodified, and otherwise it is the base64 encoding of the bytes
obtained by encoding the content string with that encoding. -/
theorem put_content_follows_encoding (cfg : Config) (net : Net) (codec : Codec)
    (k : Nat) (file : FileRecord) (req : Request)
    (hmem : req ∈ (processFile cfg net codec k file).2)
    (hput : req.method = .put) :
    ∃ path content data, file.path = some path ∧ file.content = some content ∧
      req.body = some data ∧
      ((pyLower (file.encoding.getD "utf-8") = "base64" ∧ data.content = content)
       ∨ (pyLower (file.encoding.getD "utf-8") ≠ "base64" ∧
           ∃ bytes, codec (file.encoding.getD "utf-8") content = .ok bytes ∧
             data.content = b64encodeStr bytes)) := by
  rcases processFile_cases cfg net codec k file with hnil | ⟨p, hp, hone⟩ |
      ⟨p, content, ec, getResp, sha, hp, hc, hE, hG, hS, htwo, _, _⟩
  · rw [hnil] at hmem; simp at hmem
  · rw [hone] at hmem; simp at hmem
    subst hmem
    simp [getRequest] at hput
  · rw [htwo] at hmem; simp at hmem
    rcases hmem with h | h
    · subst h; simp [getRequest] at hput
    · subst h
      refine ⟨p, content, ⟨cfg.commit_message, ec, cfg.branch, sha⟩, hp, hc, rfl, ?_⟩
      rcases encodeStep_ok codec _ content ec hE with ⟨hb, he⟩ | ⟨hb, bytes, hcd, he⟩
      · exact Or.inl ⟨hb, he⟩
      · exact Or.inr ⟨hb, bytes, hcd, he⟩

/-- C3 witness: for file0 (content hi, default utf-8 encoding) the PUT
request carries the base64 text of the utf-8 bytes of hi. -/
theorem put_content_follows_encoding_witness :
    ∃ path content data, file0.path = some path ∧ file0.content = some content ∧
      putReq0.body = some data ∧
      ((pyLower (file0.encoding.getD "utf-8") = "base64" ∧ data.content = content)
       ∨ (pyLower (file0.encoding.getD "utf-8") ≠ "base64" ∧
           ∃ bytes, pyStrEncode (file0.encoding.getD "utf-8") content = .ok bytes ∧
             data.content = b64encodeStr bytes)) :=
  put_content_follows_encoding cfg0 net0 pyStrEncode 0 file0 putReq0
    (by rw [(rfl : (processFile cfg0 net0 pyStrEncode 0 file0).2 = [getReq0, putReq0])]
        exact List.Mem.tail _ (List.Mem.head _))
    rfl

/-- C4: when a record reaches its PUT write request, the request
carries a sha field if and only if the preceding GET check returned
status 200, and in that case the sha is the value of the sha field of
the GET response body; on any other GET status the PUT carries no
sha. -/
theorem put_sha_iff_get_200 (cfg : Config) (net : Net) (codec : Codec)
    (k : Nat) (file : FileRecord) (g p : Request)
    (htrace : (processFile cfg net codec k file).2 = [g, p]) :
    g.method = .get ∧ p.method = .put ∧
      ∃ path data getResp, file.path = some path ∧
        net k g = .ok getResp ∧ p.body = some data ∧
        ((getResp.status_code = 200 ∧
            ∃ j v, getResp.json = .ok j ∧ j.getField "sha" = .ok v ∧
              data.sha = some v)
         ∨ (getResp.status_code ≠ 200 ∧ data.sha = none)) := by
  rcases processFile_cases cfg net codec k file with hnil | ⟨q, hq, hone⟩ |
      ⟨q, content, ec, getResp, sha, hp, hc, hE, hG, hS, htwo, _, _⟩
  · rw [hnil] at htrace; simp at htrace
  · rw [hone] at htrace; simp at htrace
  · rw [htwo] at htrace
    simp only [List.cons.injEq, and_true] at htrace
    obtain ⟨hg, hp2⟩ := htrace
    subst hg
    subst hp2
    refine ⟨rfl, rfl, q, ⟨cfg.commit_message, ec, cfg.branch, sha⟩, getResp, hp, hG, rfl, ?_⟩
    rcases shaStep_ok getResp sha hS with ⟨h200, j, v, hj, hf, hsha⟩ | ⟨h200, hsha⟩
    · exact Or.inl ⟨h200, j, v, hj, hf, hsha⟩
    · exact Or.inr ⟨h200, hsha⟩

/-- C4 witness: under net200 the GET for file0 returns 200 with sha
abc123 and the PUT request carries exactly that sha. -/
theorem put_sha_iff_get_200_witness :
    getReq0.method = .get ∧ putReq200.method = .put ∧
      ∃ path data getResp, file0.path = some path ∧
        net200 0 getReq0 = .ok getResp ∧ putReq200.body = some data ∧
        ((getResp.status_code = 200 ∧
            ∃ j v, getResp.json = .ok j ∧ j.getField "sha" = .ok v ∧
              data.sha = some v)
         ∨ (getResp.status_code ≠ 200 ∧ data.sha = none)) :=
  put_sha_iff_get_200 cfg0 net200 pyStrEncode 0 file0 getReq0 putReq200 rfl

/-- C5: the outcome recorded for a record that reaches its PUT request
is classified by the PUT response: status 200 or 201 with a parsed
body yields a success outcome storing that body; any other status with
a parsed body yields an error outcome storing the body and the
numeric status code; and an exception (the request raising, or
response.json() raising) yields an exception outcome storing the
stringified message. -/
theorem put_response_classification (cfg : Config) (net : Net) (codec : Codec)
    (k : Nat) (file : FileRecord) (g p : Request)
    (htrace : (processFile cfg net codec k file).2 = [g, p]) :
    ∃ path, file.path = some path ∧
      (∀ e, net (k + 1) p = .error e →
          (processFile cfg net codec k file).1 = .exception path e) ∧
      (∀ resp, net (k + 1) p = .ok resp →
        ((resp.status_code = 200 ∨ resp.status_code = 201) →
            (∀ b, resp.json = .ok b →
                (processFile cfg net codec k file).1 = .success path b) ∧
            (∀ e, resp.json = .error e →
                (processFile cfg net codec k file).1 = .exception path e)) ∧
        (¬(resp.status_code = 200 ∨ resp.status_code = 201) →
            (∀ b, resp.json = .ok b →
                (processFile cfg net codec k file).1 = .error path b resp.status_code) ∧
            (∀ e, resp.json = .error e →
                (processFile cfg net codec k file).1 = .exception path e))) := by
  rcases processFile_cases cfg net codec k file with hnil | ⟨q, hq, hone⟩ |
      ⟨q, content, ec, getResp, sha, hp, hc, hE, hG, hS, htwo, herr, hok⟩
  · rw [hnil] at htrace; simp at htrace
  · rw [hone] at htrace; simp at htrace
  · rw [htwo] at htrace
    simp only [List.cons.injEq, and_true] at htrace
    obtain ⟨hg, hp2⟩ := htrace
    subst hp2
    refine ⟨q, hp, ?_, ?_⟩
    · intro e h
      exact herr e h
    · intro resp h
      have ho := hok resp h
      constructor
      · intro hst
        constructor
        · intro b hb
          rw [ho]; simp [classifyPut, hst, hb]
        · intro e he
          rw [ho]; simp [classifyPut, hst, he]
      · intro hst
        constructor
        · intro b hb
          rw [ho]; simp [classifyPut, hst, hb]
        · intro e he
          rw [ho]; simp [classifyPut, hst, he]

/-- C5 witness: under net409 the PUT for file0 returns 409, and the
classification applies to the resulting trace. -/
theorem put_response_classification_witness :
    ∃ path, file0.path = some path ∧
      (∀ e, net409 (0 + 1) putReq0 = .error e →
          (processFile cfg0 net409 pyStrEncode 0 file0).1 = .exception path e) ∧
      (∀ resp, net409 (0 + 1) putReq0 = .ok resp →
        ((resp.status_code = 200 ∨ resp.status_code = 201) →
            (∀ b, resp.json = .ok b →
                (processFile cfg0 net409 pyStrEncode 0 file0).1 = .success path b) ∧
            (∀ e, resp.json = .error e →
                (processFile cfg0 net409 pyStrEncode 0 file0).1 = .exception path e)) ∧
        (¬(resp.status_code = 200 ∨ resp.status_code = 201) →
            (∀ b, resp.json = .ok b →
                (processFile cfg0 net409 pyStrEncode 0 file0).1
                  = .error path b resp.status_code) ∧
            (∀ e, resp.json = .error e →
                (processFile cfg0 net409 pyStrEncode 0 file0).1 = .exception path e))) :=
  put_response_classification cfg0 net409 pyStrEncode 0 file0 getReq0 putReq0 rfl

/-- C8 counterexample: the claim as stated is false on the code: the
requests carry an Authorization header in the token scheme, not the
Bearer scheme, as this concrete run shows. -/
theorem bearer_header_counterexample :
    ∃ req, req ∈ uploadRequests cfg0 net0 pyStrEncode 0 [file0] ∧
      ("Authorization", "Bearer " ++ cfg0.token) ∉ req.headers ∧
      ("Authorization", "token " ++ cfg0.token) ∈ req.headers := by
  refine ⟨getReq0, ?_, ?_, ?_⟩
  · rw [(rfl : uploadRequests cfg0 net0 pyStrEncode 0 [file0] = [getReq0, putReq0])]
    exact List.Mem.head _
  · decide
  · decide

/-- C8 (amended): every outbound request issued by the upload loop
targets the GitHub contents endpoint of the configured owner and repo
at the path of the record, and carries an Authorization header of the form
token followed by the supplied token (the token scheme), together with
the Accept header. -/
theorem all_requests_target_contents_api (cfg : Config) (net : Net) (codec : Codec) :
    ∀ (k : Nat) (files : List FileRecord) (req : Request),
      req ∈ uploadRequests cfg net codec k files →
      req.headers = [("Authorization", "token " ++ cfg.token),
                     ("Accept", "application/vnd.github.v3+json")] ∧
      ∃ file, file ∈ files ∧ ∃ p, file.path = some p ∧
        req.url = "https://api.github.com/repos/" ++ cfg.repo_owner ++ "/"
                    ++ cfg.repo_name ++ "/contents/" ++ p
  | k, [], req => by simp [uploadRequests]
  | k, f :: fs, req => by
    intro h
    rw [uploadRequests] at h
    rcases List.mem_append.mp h with h | h
    · obtain ⟨hh, p, hp, hu⟩ := processFile_request_shape cfg net codec k f req h
      exact ⟨hh, f, by simp, p, hp, hu⟩
    · obtain ⟨hh, file, hfile, p, hp, hu⟩ :=
        all_requests_target_contents_api cfg net codec _ fs req h
      exact ⟨hh, file, by simp [hfile], p, hp, hu⟩

/-- C8 witness: the GET request of the concrete run targets the
contents URL for a.txt and carries the token-scheme header. -/
theorem all_requests_target_contents_api_witness :
    getReq0.headers = [("Authorization", "token " ++ cfg0.token),
                       ("Accept", "application/vnd.github.v3+json")] ∧
      ∃ file, file ∈ [file0] ∧ ∃ p, file.path = some p ∧
        getReq0.url = "https://api.github.com/repos/" ++ cfg0.repo_owner ++ "/"
                        ++ cfg0.repo_name ++ "/contents/" ++ p :=
  all_requests_target_contents_api cfg0 net0 pyStrEncode 0 [file0] getReq0
    (by rw [(rfl : uploadRequests cfg0 net0 pyStrEncode 0 [file0] = [getReq0, putReq0])]
        exact List.Mem.head _)

/-- C10: the results list of the report is exactly the success
outcomes of the per-record outcome sequence (which is in input order),
in that order, and the errors list is exactly the non-success outcomes
in that order: the two lists form an order-preserving partition of the
per-record outcomes. -/
theorem results_errors_order (cfg : Config) (net : Net) (codec : Codec)
    (files : List FileRecord) :
    (upload_files_to_github cfg net codec files).results
        = (uploadOutcomes cfg net codec 0 files).filter Outcome.isSuccess
      ∧ (upload_files_to_github cfg net codec files).errors
        = (uploadOutcomes cfg net codec 0 files).filter (fun o => !o.isSuccess) := by
  simp [upload_files_to_github, uploadAux_eq_filters]

end GithubUpload
